import Mathlib

/-!
Verification of the comment-analysis and comment-removal engine of the
Intelligent Comment Cleaner (src/extension.js).
Text is modelled as `List Char`.  The JavaScript regexes used by the source
are hand-compiled into explicit scanners with the same semantics on the
inputs the program feeds them (newline-separated text, `g`/`gm` global
scans, leftmost match, greedy/lazy quantifiers as noted at each scanner).
Confidence scores use `ℚ` in place of JavaScript numbers.
-/

/-- Character strings, as lists of characters. -/
abbrev Str := List Char

/-- JavaScript `\s` for the ASCII range (space, tab, newline, vertical tab,
form feed, carriage return). -/
def jsIsSpace (c : Char) : Bool :=
  c == ' ' || c == '\t' || c == '\n' || c == '\x0b' || c == '\x0c' || c == '\r'

/-- JavaScript `\w`: ASCII letters, digits and underscore. -/
def isWordChar (c : Char) : Bool :=
  ('a' ≤ c && c ≤ 'z') || ('A' ≤ c && c ≤ 'Z') || ('0' ≤ c && c ≤ '9') || c == '_'

/-- ASCII letter (JavaScript `[a-zA-Z]`). -/
def isAlphaChar (c : Char) : Bool :=
  ('a' ≤ c && c ≤ 'z') || ('A' ≤ c && c ≤ 'Z')

/-- ASCII digit (JavaScript `\d`). -/
def isDigitChar (c : Char) : Bool :=
  '0' ≤ c && c ≤ '9'

/-- ASCII letter or digit (JavaScript `[a-zA-Z0-9]`). -/
def isAlnumChar (c : Char) : Bool :=
  isAlphaChar c || isDigitChar c

/-- JavaScript `String.prototype.trim`. -/
def jsTrim (l : Str) : Str :=
  ((l.dropWhile jsIsSpace).reverse.dropWhile jsIsSpace).reverse

/-- Lowercasing (JavaScript `toLowerCase` on the ASCII range). -/
def toLowerStr (l : Str) : Str :=
  l.map Char.toLower

/-- Fuel-driven worker for `stripDelims`.  Every step consumes at least one
character, so fuel equal to the input length never runs out. -/
def stripDelimsGo : Nat → Str → Str
  | 0, _ => []
  | _, [] => []
  | fuel + 1, '/' :: '*' :: rest => stripDelimsGo fuel (rest.dropWhile (· == '*'))
  | fuel + 1, '/' :: '/' :: rest => stripDelimsGo fuel (rest.dropWhile (· == '/'))
  | fuel + 1, '#' :: rest => stripDelimsGo fuel (rest.dropWhile (· == '#'))
  | fuel + 1, '*' :: rest =>
    if (rest.dropWhile (· == '*')).head? = some '/' then
      stripDelimsGo fuel ((rest.dropWhile (· == '*')).tail)
    else
      '*' :: stripDelimsGo fuel rest
  | fuel + 1, c :: rest => c :: stripDelimsGo fuel rest

/-- One pass of the source's delimiter-stripping global replace
`text.replace(/\/\*+|\*+\/|\/\/+|#+/g, '')` (extension.js line 308):
at each position the regex alternatives are tried in order
`/\*+`, `\*+\/`, `//+`, `#+`, each `+` greedy; a match is dropped from the
output and scanning resumes after it, otherwise the character is kept. -/
def stripDelims (l : Str) : Str :=
  stripDelimsGo l.length l

/-- Fuel-driven worker for `collapseWs`. -/
def collapseWsGo : Nat → Str → Str
  | 0, _ => []
  | _, [] => []
  | fuel + 1, c :: rest =>
    if jsIsSpace c then ' ' :: collapseWsGo fuel (rest.dropWhile jsIsSpace)
    else c :: collapseWsGo fuel rest

/-- The source's whitespace-collapsing replace `replace(/\s+/g, ' ')`
(extension.js line 309): every maximal whitespace run becomes one space. -/
def collapseWs (l : Str) : Str :=
  collapseWsGo l.length l

/-- `cleanCommentText` (extension.js lines 306-312): strip comment
delimiters, collapse whitespace, trim, lowercase. -/
def cleanCommentText (l : Str) : Str :=
  toLowerStr (jsTrim (collapseWs (stripDelims l)))

/-- Index of the first occurrence of `pat` in `l` (JavaScript leftmost regex
match of an escaped literal, or `indexOf`). -/
def findSub? (pat : Str) : Str → Option Nat
  | [] => if pat.isEmpty then some 0 else none
  | c :: t =>
    if pat.isPrefixOf (c :: t) then some 0
    else (findSub? pat t).map (· + 1)

/-- Number of non-overlapping occurrences of the literal `pat` counted by the
source's `text.match(new RegExp(escaped, 'g'))` (extension.js lines 560-563):
leftmost match, then scanning resumes after the match. -/
def countOccurGo (pat : Str) : Nat → Str → Nat
  | 0, _ => 0
  | _, [] => 0
  | fuel + 1, c :: t =>
    if pat.isPrefixOf (c :: t) && !pat.isEmpty then
      1 + countOccurGo pat fuel ((c :: t).drop pat.length)
    else
      countOccurGo pat fuel t

/-- See `countOccurGo`. -/
def countOccur (pat text : Str) : Nat :=
  countOccurGo pat text.length text

/-- Split a text into its lines at `'\n'` (the newline convention shared by
the host document's `positionAt`/`lineAt`).  `"a\n"` has the two lines
`"a"` and `""`. -/
def splitLines : Str → List Str
  | [] => [[]]
  | '\n' :: t => [] :: splitLines t
  | c :: t =>
    match splitLines t with
    | [] => [[c]]
    | l :: ls => (c :: l) :: ls

/-- Offset of the first character of line `n` (each earlier line contributes
its length plus one for the newline). -/
def lineStartOff : List Str → Nat → Nat
  | _, 0 => 0
  | [], _ + 1 => 0
  | l :: ls, n + 1 => l.length + 1 + lineStartOff ls n

/-- The host's `positionAt`: convert an absolute offset into a
(line, column) pair by counting newlines before it. -/
def posAt (text : Str) (off : Nat) : Nat × Nat :=
  let pre := text.take off
  ((pre.filter (· == '\n')).length, (pre.reverse.takeWhile (· != '\n')).length)

/-- Scanner for the lazy multi-line comment regexes
(`/\/\*[\s\S]*?\*\//g`, `/"""[\s\S]*?"""|'''[\s\S]*?'''/g`, `/<!--[\s\S]*?-->/g`):
at each position the first alternative whose opener starts there is taken and
the match extends to the nearest following closer (lazy `[\s\S]*?`); if no
closer follows, no match starts at or after this opener for that alternative
and scanning moves on.  Returns half-open offset ranges. -/
def scanMultiGo (alts : List (Str × Str)) : Nat → Str → Nat → List (Nat × Nat)
  | 0, _, _ => []
  | _, [], _ => []
  | fuel + 1, c :: t, base =>
    match alts.find? (fun p => p.1.isPrefixOf (c :: t)) with
    | some (op, cl) =>
      match findSub? cl ((c :: t).drop op.length) with
      | some j =>
        let len := op.length + j + cl.length
        (base, base + len) :: scanMultiGo alts fuel ((c :: t).drop len) (base + len)
      | none => scanMultiGo alts fuel t (base + 1)
    | none => scanMultiGo alts fuel t (base + 1)

/-- See `scanMultiGo`. -/
def scanMulti (alts : List (Str × Str)) (text : Str) : List (Nat × Nat) :=
  scanMultiGo alts text.length text 0

/-- One language profile from `getLanguageConfig` (extension.js lines 23-77).
`singleLine` holds the comment marker of the `/marker.*$/gm` single-line
regex; `multiLine` holds the (opener, closer) alternatives of the lazy
multi-line regex; `docBlock` likewise (it is never consulted by
extraction). -/
structure LangConfig where
  singleLine : Option Str
  multiLine : Option (List (Str × Str))
  docBlock : Option (Str × Str)
  keywords : List Str
deriving DecidableEq, Repr

/-- The `'javascript'` profile. -/
def jsConfig : LangConfig where
  singleLine := some ("//".toList)
  multiLine := some [("/*".toList, "*/".toList)]
  docBlock := some ("/**".toList, "*/".toList)
  keywords := ["function".toList, "const".toList, "let".toList, "var".toList,
    "class".toList, "if".toList, "else".toList, "for".toList, "while".toList,
    "return".toList, "import".toList, "export".toList]

/-- The `'typescript'` profile. -/
def tsConfig : LangConfig where
  singleLine := some ("//".toList)
  multiLine := some [("/*".toList, "*/".toList)]
  docBlock := some ("/**".toList, "*/".toList)
  keywords := ["function".toList, "const".toList, "let".toList, "var".toList,
    "class".toList, "interface".toList, "type".toList, "enum".toList,
    "if".toList, "else".toList, "for".toList, "while".toList,
    "return".toList, "import".toList, "export".toList]

/-- The `'python'` profile. -/
def pyConfig : LangConfig where
  singleLine := some ("#".toList)
  multiLine := some [("\"\"\"".toList, "\"\"\"".toList), ("'''".toList, "'''".toList)]
  docBlock := some ("\"\"\"".toList, "\"\"\"".toList)
  keywords := ["def".toList, "class".toList, "if".toList, "elif".toList,
    "else".toList, "for".toList, "while".toList, "return".toList,
    "import".toList, "from".toList, "try".toList, "except".toList]

/-- The `'java'` profile (also aliased to `'c'` and `'cpp'`). -/
def javaConfig : LangConfig where
  singleLine := some ("//".toList)
  multiLine := some [("/*".toList, "*/".toList)]
  docBlock := some ("/**".toList, "*/".toList)
  keywords := ["public".toList, "private".toList, "protected".toList,
    "class".toList, "interface".toList, "if".toList, "else".toList,
    "for".toList, "while".toList, "return".toList, "import".toList]

/-- The `'csharp'` profile. -/
def csConfig : LangConfig where
  singleLine := some ("//".toList)
  multiLine := some [("/*".toList, "*/".toList)]
  docBlock := some ("/**".toList, "*/".toList)
  keywords := ["public".toList, "private".toList, "protected".toList,
    "class".toList, "interface".toList, "namespace".toList, "using".toList,
    "if".toList, "else".toList, "for".toList, "while".toList, "return".toList]

/-- The `'html'` profile (also aliased to `'xml'`). -/
def htmlConfig : LangConfig where
  singleLine := none
  multiLine := some [("<!--".toList, "-->".toList)]
  docBlock := none
  keywords := ["div".toList, "span".toList, "html".toList, "head".toList,
    "body".toList, "script".toList, "style".toList]

/-- The `'css'` profile. -/
def cssConfig : LangConfig where
  singleLine := none
  multiLine := some [("/*".toList, "*/".toList)]
  docBlock := none
  keywords := ["class".toList, "id".toList, "color".toList,
    "background".toList, "margin".toList, "padding".toList]

/-- `getLanguageConfig` (extension.js lines 23-77), including the aliases
added at lines 70-74; unknown ids yield `none`. -/
def getLanguageConfig (languageId : String) : Option LangConfig :=
  match languageId with
  | "javascript" => some jsConfig
  | "typescript" => some tsConfig
  | "python" => some pyConfig
  | "java" => some javaConfig
  | "csharp" => some csConfig
  | "html" => some htmlConfig
  | "css" => some cssConfig
  | "javascriptreact" => some jsConfig
  | "typescriptreact" => some tsConfig
  | "c" => some javaConfig
  | "cpp" => some javaConfig
  | "xml" => some htmlConfig
  | _ => none

/-- A host document: full text plus language id. -/
structure Document where
  text : Str
  languageId : String
deriving DecidableEq, Repr

/-- Surrounding-line context attached to a comment by `getContext`
(extension.js lines 147-157). -/
structure Context where
  previousLine : Str
  currentLine : Str
  nextLine : Str
  nextNonEmptyLine : Str
  indentLevel : Nat
deriving DecidableEq, Repr

/-- The `type` tag of an extracted comment (`'single'`, `'multi'`; the
classifier additionally tests for a `'docblock'` tag that extraction never
produces). -/
inductive CommentType where
  | single
  | multi
  | docblock
deriving DecidableEq, Repr

/-- One extracted comment record (extension.js lines 98-105 and 118-125).
`isDocBlock` is absent (undefined, hence falsy) on every record the source
builds; it is carried here because `analyzeComment` reads it. -/
structure SrcComment where
  type : CommentType
  text : Str
  startOff : Nat
  endOff : Nat
  startLine : Nat
  startChar : Nat
  lineNumber : Nat
  context : Context
  isInlineComment : Bool
  isDocBlock : Bool
deriving DecidableEq, Repr

/-- `getNextNonEmptyLine` (extension.js lines 162-170): first line at or
after `startLine` whose trimmed text is non-empty, trimmed; `""` if none. -/
def getNextNonEmptyLine (ls : List Str) (startLine : Nat) : Str :=
  (((ls.drop startLine).map jsTrim).find? (fun l => !l.isEmpty)).getD []

/-- `getIndentLevel` (extension.js lines 175-178): length of the leading
whitespace of the line. -/
def getIndentLevel (line : Str) : Nat :=
  (line.takeWhile jsIsSpace).length

/-- `getContext` (extension.js lines 147-157). -/
def getContext (ls : List Str) (lineNumber : Nat) : Context where
  previousLine := if 0 < lineNumber then jsTrim (ls.getD (lineNumber - 1) []) else []
  currentLine := jsTrim (ls.getD lineNumber [])
  nextLine := if lineNumber < ls.length - 1 then jsTrim (ls.getD (lineNumber + 1) []) else []
  nextNonEmptyLine := getNextNonEmptyLine ls (lineNumber + 1)
  indentLevel := getIndentLevel (ls.getD lineNumber [])

/-- Build the record for one single-line match on line `i`, whose first
marker occurrence is at column `j` (the `/marker.*$/gm` match runs from the
marker to the end of the line). -/
def mkSingleComment (ls : List Str) (i j : Nat) (line : Str) : SrcComment where
  type := CommentType.single
  text := line.drop j
  startOff := lineStartOff ls i + j
  endOff := lineStartOff ls i + line.length
  startLine := i
  startChar := j
  lineNumber := i
  context := getContext ls i
  isInlineComment := decide (0 < j)
  isDocBlock := false

/-- Build the record for one multi-line match covering offsets `[s, e)`. -/
def mkMultiComment (text : Str) (ls : List Str) (s e : Nat) : SrcComment :=
  let p := posAt text s
  { type := CommentType.multi
    text := (text.drop s).take (e - s)
    startOff := s
    endOff := e
    startLine := p.1
    startChar := p.2
    lineNumber := p.1
    context := getContext ls p.1
    isInlineComment := false
    isDocBlock := false }

/-- The single-line scan of `extractComments` (extension.js lines 90-107):
one match per line containing the marker, from its first occurrence to the
end of the line. -/
def extractSingles (ls : List Str) (cfg : LangConfig) : List SrcComment :=
  match cfg.singleLine with
  | none => []
  | some marker =>
    ls.enum.filterMap (fun p =>
      (findSub? marker p.2).map (fun j => mkSingleComment ls p.1 j p.2))

/-- The multi-line scan of `extractComments` (extension.js lines 110-127). -/
def extractMultis (d : Document) (ls : List Str) (cfg : LangConfig) : List SrcComment :=
  match cfg.multiLine with
  | none => []
  | some alts =>
    (scanMulti alts d.text).map (fun r => mkMultiComment d.text ls r.1 r.2)

/-- `extractComments` (extension.js lines 82-132): no profile yields `[]`;
otherwise all single-line matches followed by all multi-line matches.  The
profile's `docBlock` pattern is never applied. -/
def extractComments (d : Document) : List SrcComment :=
  match getLanguageConfig d.languageId with
  | none => []
  | some cfg =>
    extractSingles (splitLines d.text) cfg ++ extractMultis d (splitLines d.text) cfg

/-- The python scenario document `"# old version\nx = get_value()\n"`. -/
def docOldVersion : Document where
  text := "# old version\nx = get_value()\n".toList
  languageId := "python"

/-- A document on which the single-line and multi-line scans overlap. -/
def docOverlap : Document where
  text := "/* // x */\ncode".toList
  languageId := "javascript"

/-- `pat` occurs somewhere in `l` (JavaScript `String.prototype.includes`). -/
def containsSub (pat l : Str) : Bool :=
  (findSub? pat l).isSome

/-- The fixed substring set of `isCriticalComment`
(extension.js lines 317-354). -/
def criticalPatterns : List Str :=
  (["eslint-disable", "eslint-enable", "jshint", "tslint", "prettier-ignore",
    "stylelint-disable", "stylelint-enable",
    "@ts-ignore", "@ts-expect-error", "@ts-check", "@ts-nocheck",
    "webpack:", "rollup:", "vite:", "esbuild:",
    "vue-ignore", "angular-ignore", "react-ignore",
    "copyright", "license", "mit license", "apache license", "gpl license",
    "todo:", "fixme:", "hack:", "note:", "warning:", "danger:", "important:",
    "bug:", "issue:", "ticket:", "jira:", "github:",
    "@param", "@returns", "@throws", "@deprecated", "@example", "@see",
    "@since", "@author", "@version",
    "#ifdef", "#ifndef", "#endif", "#pragma",
    "performance:", "optimization:", "benchmark:", "profiling:",
    "security:", "vulnerability:", "cve-", "sanitize:", "validate:"]).map String.toList

/-- `isCriticalComment` (extension.js lines 317-354). -/
def isCriticalComment (clean : Str) : Bool :=
  criticalPatterns.any (fun p => containsSub p clean)

/-- The explanatory-word vocabulary of `isDocumentation`
(extension.js lines 364-369). -/
def docPatterns : List Str :=
  (["explains", "describes", "represents", "implements", "algorithm",
    "strategy", "pattern", "approach", "method", "technique",
    "purpose:", "goal:", "objective:", "requirements:", "assumptions:",
    "preconditions:", "postconditions:", "side effects:"]).map String.toList

/-- `isDocumentation` (extension.js lines 359-389). -/
def isDocumentation (clean : Str) (ctx : Context) : Bool :=
  if clean.length < 10 then false
  else
    let isAtFunctionStart :=
      containsSub ("function".toList) ctx.nextNonEmptyLine ||
      containsSub ("class".toList) ctx.nextNonEmptyLine ||
      containsSub ("def ".toList) ctx.nextNonEmptyLine ||
      containsSub ("public ".toList) ctx.nextNonEmptyLine ||
      containsSub ("private ".toList) ctx.nextNonEmptyLine
    let hasComplexExplanation :=
      decide (50 < clean.length) &&
        (containsSub ("because".toList) clean ||
         containsSub ("however".toList) clean ||
         containsSub ("therefore".toList) clean ||
         containsSub ("algorithm".toList) clean ||
         containsSub ("implementation".toList) clean)
    docPatterns.any (fun p => containsSub p clean) ||
      (isAtFunctionStart && decide (20 < clean.length)) ||
      hasComplexExplanation

/-- After the `=` of a candidate `\w+\s*=\s*\w+` match: optional whitespace
then a word character. -/
def vaAfterEq (l : Str) : Bool :=
  match l.dropWhile jsIsSpace with
  | c :: _ => isWordChar c
  | [] => false

/-- After the anchoring word character of a candidate `\w+\s*=\s*\w+` match:
optional whitespace, `=`, then `vaAfterEq`. -/
def vaAfterWord (l : Str) : Bool :=
  match l.dropWhile jsIsSpace with
  | '=' :: r => vaAfterEq r
  | _ => false

/-- The source's `/\w+\s*=\s*\w+/.test` (extension.js line 425): some word
character is followed by optional whitespace, `=`, optional whitespace and a
word character. -/
def hasVarAssign : Str → Bool
  | [] => false
  | c :: rest => (isWordChar c && vaAfterWord rest) || hasVarAssign rest

/-- After the `(` of a candidate `\w+\s*\([^)]*\)` match: `[^)]*\)` succeeds
exactly when a `)` occurs later. -/
def fcAfterParen (l : Str) : Bool :=
  !(l.dropWhile (· != ')')).isEmpty

/-- After the anchoring word character of a candidate `\w+\s*\([^)]*\)`
match. -/
def fcAfterWord (l : Str) : Bool :=
  match l.dropWhile jsIsSpace with
  | '(' :: r => fcAfterParen r
  | _ => false

/-- The source's `/\w+\s*\([^)]*\)/.test` (extension.js line 426). -/
def hasFuncCall : Str → Bool
  | [] => false
  | c :: rest => (isWordChar c && fcAfterWord rest) || hasFuncCall rest

/-- Optional whitespace then `(`. -/
def cfAfterKw (l : Str) : Bool :=
  match l.dropWhile jsIsSpace with
  | '(' :: _ => true
  | _ => false

/-- The source's `/(if|for|while|try)\s*\(/.test` (extension.js line 427);
the keyword may start anywhere, including inside a longer word. -/
def hasCodeFlow : Str → Bool
  | [] => false
  | c :: rest =>
    (["if".toList, "for".toList, "while".toList, "try".toList].any
      (fun w => w.isPrefixOf (c :: rest) && cfAfterKw ((c :: rest).drop w.length)))
    || hasCodeFlow rest

/-- The fixed symbol set of `isCommentedCode` (extension.js line 398). -/
def codeSymbols : List Str :=
  (["\x7b", "\x7d", "(", ")", "[", "]", ";", "=", "==", "===", "!=", "!==",
    "&&", "||", "++", "--"]).map String.toList

/-- `isCommentedCode` (extension.js lines 394-430).  The source also counts
an `operators` list, but the returned disjunction never consults that count,
so it is omitted here. -/
def isCommentedCode (clean : Str) (cfg? : Option LangConfig) : Bool :=
  match cfg? with
  | none => false
  | some cfg =>
    if clean.length < 3 then false
    else
      let symbolCount := codeSymbols.countP (fun s => containsSub s clean)
      let keywordCount := cfg.keywords.countP (fun k =>
        containsSub (k ++ [' ']) clean || containsSub (' ' :: k) clean)
      decide (3 ≤ symbolCount) || decide (2 ≤ keywordCount) ||
        hasVarAssign clean || hasFuncCall clean || hasCodeFlow clean

/-- Whitespace-separated tokens of `l` (JavaScript `split(/\s+/)`; the empty
fragments that split can produce at the ends carry no length > 2 token, and
every use below filters on token length > 2, so they are dropped here). -/
def wsplitGo : Nat → Str → List Str
  | 0, _ => []
  | _, [] => []
  | fuel + 1, l =>
    let l' := l.dropWhile jsIsSpace
    let w := l'.takeWhile (fun c => !jsIsSpace c)
    if w.isEmpty then [] else w :: wsplitGo fuel (l'.drop w.length)

/-- See `wsplitGo`. -/
def wsplit (l : Str) : List Str :=
  wsplitGo l.length l

/-- The fixed synonym table of `calculateRedundancyScore`
(extension.js lines 463-471). -/
def semanticPairs : List (Str × List Str) :=
  [("get".toList, ["fetch", "retrieve", "obtain"].map String.toList),
   ("set".toList, ["assign", "update", "change"].map String.toList),
   ("create".toList, ["make", "build", "generate", "new"].map String.toList),
   ("delete".toList, ["remove", "destroy", "clear"].map String.toList),
   ("check".toList, ["validate", "verify", "test"].map String.toList),
   ("start".toList, ["begin", "init", "initialize"].map String.toList),
   ("end".toList, ["finish", "complete", "stop"].map String.toList)]

/-- Number of synonym-table entries a comment word matches against the code
words (the source's inner `Object.entries(semanticPairs).forEach`). -/
def semCount (w : Str) (codeWords : List Str) : Nat :=
  semanticPairs.countP (fun p => w == p.1 && p.2.any (fun syn => codeWords.contains syn))

/-- The `(exactMatches, partialMatches, semanticMatches)` counters of
`calculateRedundancyScore` (extension.js lines 445-478): each comment word
feeds exactly one counter (exact membership first, then substring overlap,
then the synonym table). -/
def redundancyCounts (commentWords codeWords : List Str) : Nat × Nat × Nat :=
  commentWords.foldl (fun acc w =>
    if codeWords.contains w then (acc.1 + 1, acc.2.1, acc.2.2)
    else if codeWords.any (fun cw => containsSub w cw || containsSub cw w) then
      (acc.1, acc.2.1 + 1, acc.2.2)
    else (acc.1, acc.2.1, acc.2.2 + semCount w codeWords)) (0, 0, 0)

/-- `calculateRedundancyScore` (extension.js lines 435-485), with scores in
`ℚ`: weighted matches over the comment token count, capped at `0.95`. -/
def calculateRedundancyScore (clean : Str) (ctx : Context) : ℚ :=
  if clean.length < 3 || ctx.nextNonEmptyLine.isEmpty then 0
  else
    let nextLine := (toLowerStr ctx.nextNonEmptyLine).map
      (fun c => if isAlnumChar c then c else ' ')
    let commentWords := (wsplit clean).filter (fun w => 2 < w.length)
    let codeWords := (wsplit nextLine).filter (fun w => 2 < w.length)
    if commentWords.isEmpty || codeWords.isEmpty then 0
    else
      let counts := redundancyCounts commentWords codeWords
      min ((counts.1 + (7 : ℚ)/10 * counts.2.1 + (1 : ℚ)/2 * counts.2.2)
            / commentWords.length) (19/20)

/-- Three consecutive occurrences of `c` somewhere in the string (an
unanchored `[c]{3,}` test). -/
def hasRun3 (c : Char) : Str → Bool
  | [] => false
  | a :: rest => (a == c && rest.take 2 == [c, c]) || hasRun3 c rest

/-- Matcher for `(\w+\s*){0,k}$`: whether `l` decomposes into at most `k`
blocks of word characters followed by optional whitespace.  Taking each
maximal word run and maximal whitespace run is complete: a block's `\w+`
cannot cross whitespace and its `\s*` must absorb the whole whitespace run
(the next block starts with a word character). -/
def chunk13 : Nat → Str → Bool
  | _, [] => true
  | 0, _ :: _ => false
  | k + 1, c :: t =>
    let w := (c :: t).takeWhile isWordChar
    if w.isEmpty then false
    else chunk13 k (((c :: t).drop w.length).dropWhile jsIsSpace)

/-- The noise regex `/^(\w+\s*){1,3}$/` (extension.js line 601). -/
def noiseShort13 (l : Str) : Bool :=
  !l.isEmpty && chunk13 3 l

/-- `\d+\.\d+` as a prefix of `r`. -/
def verTail (r : Str) : Bool :=
  let ds := r.takeWhile isDigitChar
  !ds.isEmpty &&
    (match r.drop ds.length with
     | '.' :: r2 => !(r2.takeWhile isDigitChar).isEmpty
     | _ => false)

/-- The noise regex `/^\d+$|^v?\d+\.\d+/` (extension.js line 603). -/
def noiseVersion (l : Str) : Bool :=
  (!l.isEmpty && l.all isDigitChar) ||
    (match l with
     | 'v' :: r => verTail r
     | _ => verTail l)

/-- The full-string alternative sets of the first eight noise regexes
(extension.js lines 593-600). -/
def noiseExactSets : List Str :=
  (["test", "testing", "debug", "debugging", "temp", "temporary", "tmp",
    "old", "deprecated", "unused", "comment", "comments", "code", "codes",
    "fix", "fixed", "fixes", "change", "changed", "changes",
    "update", "updated", "updates"]).map String.toList

/-- The decorative-run regex `/^[.]{3,}|[-]{3,}|[=]{3,}|[*]{3,}/`
(extension.js line 602); only the dot alternative is anchored at the
start. -/
def noiseDecorative (l : Str) : Bool :=
  l.take 3 == ['.', '.', '.'] || hasRun3 '-' l || hasRun3 '=' l || hasRun3 '*' l

/-- `isNoiseComment` (extension.js lines 591-607). -/
def isNoiseComment (clean : Str) : Bool :=
  noiseExactSets.contains clean || noiseShort13 clean || noiseDecorative clean ||
    noiseVersion clean || decide (clean.length ≤ 2)

/-- The fixed vocabulary of `isOutdatedComment` (extension.js
lines 613-618). -/
def outdatedIndicators : List Str :=
  (["old version", "previous version", "legacy", "deprecated",
    "no longer", "not used", "unused", "obsolete",
    "will be removed", "to be deleted", "remove this",
    "temporary fix", "quick fix", "workaround"]).map String.toList

/-- `isOutdatedComment` (extension.js lines 612-621); the context parameter
is accepted and ignored, as in the source. -/
def isOutdatedComment (clean : Str) (_ctx : Context) : Bool :=
  outdatedIndicators.any (fun p => containsSub p clean)

/-- A non-empty all-word-character string (`\w+$` after a literal). -/
def isWordTok (l : Str) : Bool :=
  !l.isEmpty && l.all isWordChar

/-- Full-string matcher for `^LIT\w+$`. -/
def matchLitWordEnd (pre l : Str) : Bool :=
  pre.isPrefixOf l && isWordTok (l.drop pre.length)

/-- Full-string matcher for `^LIT\w+MID\w+$` (the `\w+` takes its maximal
run; it cannot cross the space that starts `MID`). -/
def matchLitWordLitWordEnd (pre mid l : Str) : Bool :=
  pre.isPrefixOf l &&
    (let r := l.drop pre.length
     let w := r.takeWhile isWordChar
     !w.isEmpty && mid.isPrefixOf (r.drop w.length) &&
       isWordTok (r.drop (w.length + mid.length)))

/-- Full-string matcher for `^\w+MID\w+$`. -/
def matchWordLitWordEnd (mid l : Str) : Bool :=
  let w := l.takeWhile isWordChar
  !w.isEmpty && mid.isPrefixOf (l.drop w.length) &&
    isWordTok (l.drop (w.length + mid.length))

/-- The `trivialPatterns` list (extension.js lines 498-525): the shapes
`^(word|...) \w+$`, the three two-slot shapes, and the exact phrases. -/
def trivialShapes (l : Str) : Bool :=
  ((["increment ", "decrement ", "add ", "subtract ", "multiply ", "divide ",
     "open ", "close ", "show ", "hide ", "enable ", "disable ",
     "start ", "stop ", "loop through ", "iterate through ",
     "return ", "call "]).map String.toList).any (fun p => matchLitWordEnd p l)
  || matchLitWordLitWordEnd ("set ".toList) (" to ".toList) l
  || matchWordLitWordEnd (" equals ".toList) l
  || matchLitWordLitWordEnd ("assign ".toList) (" to ".toList) l
  || matchLitWordLitWordEnd ("check if ".toList) (" is ".toList) l
  || ((["constructor", "getter", "setter", "main function",
        "helper function", "utility function"]).map String.toList).contains l

/-- `isTrivialComment` (extension.js lines 497-539): the name-repetition
check against the next non-empty line fires first, then the fixed shapes. -/
def isTrivialComment (clean : Str) (ctx : Context) : Bool :=
  (!ctx.nextNonEmptyLine.isEmpty &&
    toLowerStr (clean.filter isAlphaChar)
      == toLowerStr ((toLowerStr ctx.nextNonEmptyLine).filter isAlphaChar))
  || trivialShapes clean

/-- `isEmptyComment` (extension.js lines 544-548): fewer than two word
characters remain after stripping non-word characters. -/
def isEmptyComment (clean : Str) : Bool :=
  (clean.filter isWordChar).length < 2

/-- `isDuplicateComment` (extension.js lines 553-564): the trimmed raw
comment text occurs more than once in the document. -/
def isDuplicateComment (clean : Str) (c : SrcComment) (d : Document) : Bool :=
  decide (5 ≤ clean.length) && decide (1 < countOccur (jsTrim c.text) d.text)

/-- The prefix alternatives of `debugPatterns` (extension.js lines 570-583),
with each regex alternation expanded into its literal prefixes. -/
def debugStarts : List Str :=
  (["console.log", "print", "echo", "debug", "trace",
    "test", "testing", "temp", "temporary", "tmp",
    "remove this", "remove me", "remove later",
    "delete this", "delete me", "delete later",
    "work in progress", "wip", "placeholder", "stub",
    "broken", "doesnt work", "not working",
    "quick fix", "quick hack", "dirty fix",
    "remember to", "dont forget", "asap", "urgent", "priority",
    "review this", "review later", "check this", "check later",
    "delete before", "remove before", "for now", "temporarily"]).map String.toList

/-- `isDebugComment` (extension.js lines 569-586). -/
def isDebugComment (clean : Str) : Bool :=
  debugStarts.any (fun p => p.isPrefixOf clean)

/-- A `ClassificationResult` as built by `analyzeComment`
(extension.js lines 184-189). -/
structure Analysis where
  category : String
  shouldRemove : Bool
  confidence : ℚ
  reasons : List String
deriving DecidableEq, Repr

/-- The default result of the final branch of `analyzeComment`
(extension.js lines 295-298). -/
def regularAnalysis : Analysis where
  category := "regular"
  shouldRemove := false
  confidence := 3/10
  reasons := ["Regular comment - preserving for safety"]

/-- The priority pipeline of `analyzeComment` after its doc-block branch
(extension.js lines 203-300), with the normalized text `clean` passed
explicitly: the rules fire in fixed order, first match wins. -/
def classifyClean (c : SrcComment) (d : Document) (clean : Str) : Analysis :=
  if isCriticalComment clean then
    ⟨"critical", false, 19/20, ["Contains critical directives or important metadata"]⟩
  else if isDocumentation clean c.context then
    ⟨"documentation", false, 17/20, ["Appears to be meaningful documentation"]⟩
  else if isCommentedCode clean (getLanguageConfig d.languageId) then
    ⟨"commented_code", true, 9/10, ["Appears to be commented-out code"]⟩
  else if 1/2 < calculateRedundancyScore clean c.context then
    ⟨"redundant", true, calculateRedundancyScore clean c.context,
      ["Comment is redundant with the code it describes"]⟩
  else if isNoiseComment clean then
    ⟨"noise", true, 4/5, ["Comment appears to be noise or placeholder"]⟩
  else if isOutdatedComment clean c.context then
    ⟨"outdated", true, 7/10, ["Comment appears to be outdated or incorrect"]⟩
  else if isTrivialComment clean c.context then
    ⟨"trivial", true, 3/4, ["Comment states the obvious"]⟩
  else if isEmptyComment clean then
    ⟨"empty", true, 19/20, ["Comment is empty or contains only whitespace"]⟩
  else if isDuplicateComment clean c d then
    ⟨"duplicate", true, 4/5, ["Comment is duplicated elsewhere"]⟩
  else if isDebugComment clean then
    ⟨"debug", true, 17/20, ["Comment appears to be debug or temporary"]⟩
  else
    regularAnalysis

/-- The pipeline applied to `cleanCommentText` of the comment, as the source
does (extension.js line 191). -/
def restAnalysis (c : SrcComment) (d : Document) : Analysis :=
  classifyClean c d (cleanCommentText c.text)

/-- `analyzeComment` (extension.js lines 183-301): the doc-block branch
(line 195), then the priority pipeline. -/
def analyzeComment (c : SrcComment) (d : Document) : Analysis :=
  if c.type == CommentType.docblock || c.isDocBlock then
    ⟨"documentation", false, 9/10, ["API documentation block"]⟩
  else
    restAnalysis c d

/-- The context record extraction attaches to the `"# old version"`
comment. -/
def ctxOldVersion : Context where
  previousLine := []
  currentLine := "# old version".toList
  nextLine := "x = get_value()".toList
  nextNonEmptyLine := "x = get_value()".toList
  indentLevel := 0

/-- The comment record extraction produces for `docOldVersion`. -/
def cOldVersion : SrcComment where
  type := CommentType.single
  text := "# old version".toList
  startOff := 0
  endOff := 13
  startLine := 0
  startChar := 0
  lineNumber := 0
  context := ctxOldVersion
  isInlineComment := false
  isDocBlock := false

/-- A half-open deletion range `[s, e)` of absolute offsets. -/
structure Range where
  s : Nat
  e : Nat
deriving DecidableEq, Repr

/-- The two deletion shapes of `removeComments` (extension.js
lines 1072-1089): the comment's whole line, or exactly the comment's
span. -/
inductive Deletion where
  | wholeLine (line : Nat)
  | span (s e : Nat)
deriving DecidableEq, Repr

/-- The per-comment branch of `removeComments` (extension.js
lines 1074-1088): if the text before the comment's start column on its
line trims to nothing, delete the whole line, else delete the span. -/
def chooseDeletion (d : Document) (c : SrcComment) : Deletion :=
  if jsTrim (((splitLines d.text).getD c.startLine []).take c.startChar) = [] then
    Deletion.wholeLine c.startLine
  else
    Deletion.span c.startOff c.endOff

/-- Offsets of a `Deletion`: a whole line runs from its line start to the
next line start (the host clamps positions past the end of the document to
the document end). -/
def delRange (d : Document) : Deletion → Range
  | Deletion.wholeLine n =>
    ⟨min (lineStartOff (splitLines d.text) n) d.text.length,
      min (lineStartOff (splitLines d.text) (n + 1)) d.text.length⟩
  | Deletion.span s e => ⟨s, e⟩

/-- Stable insertion into a list sorted by `startOff` descending (a new
comment goes after existing ones with greater-or-equal start, matching the
stable `sort((a, b) => b.start.compareTo(a.start))` of extension.js
line 1070; position order and offset order agree). -/
def insertByStart (c : SrcComment) : List SrcComment → List SrcComment
  | [] => [c]
  | d :: ds =>
    if c.startOff ≤ d.startOff then d :: insertByStart c ds
    else c :: d :: ds

/-- Sort comments by start position descending (stable). -/
def sortByStartDesc (l : List SrcComment) : List SrcComment :=
  l.foldl (fun acc c => insertByStart c acc) []

/-- The deletion plan of `removeComments` (extension.js lines 1068-1089):
sort the selected comments by start position descending, then choose each
one's deletion range against the unmodified document snapshot. -/
def planRemoval (d : Document) (selected : List SrcComment) : List Range :=
  (sortByStartDesc selected).map (fun c => delRange d (chooseDeletion d c))

/-- Apply one deletion to a buffer: drop the characters at offsets
`[r.s, r.e)`. -/
def applyDel (t : Str) (r : Range) : Str :=
  t.take r.s ++ t.drop r.e

/-- Whether the character at offset `i` survives every range in `rs`. -/
def keepAt (rs : List Range) (i : Nat) : Bool :=
  rs.all (fun r => decide (i < r.s) || decide (r.e ≤ i))

/-- Reference removal: walk the original text with its offsets and keep
exactly the characters outside all ranges. -/
def refAux (rs : List Range) : Nat → Str → Str
  | _, [] => []
  | i, c :: t => if keepAt rs i then c :: refAux rs (i + 1) t else refAux rs (i + 1) t

/-- The reference "delete all ranges from the immutable original and
reassemble" algorithm. -/
def refRemove (t : Str) (rs : List Range) : Str :=
  refAux rs 0 t

/-- The ranges are well-formed, pairwise disjoint and ordered by start
descending: each later range ends at or before each earlier range
starts. -/
def descSep : List Range → Bool
  | [] => true
  | r :: rs => decide (r.s ≤ r.e) && rs.all (fun r2 => decide (r2.e ≤ r.s)) && descSep rs

/-- The classifier as an ordered rule table: the firing condition and the
result of each of the eleven non-default rules of `analyzeComment`, in the
source's priority order. -/
def classifierRules (c : SrcComment) (d : Document) : List (Bool × Analysis) :=
  [(c.type == CommentType.docblock || c.isDocBlock,
    ⟨"documentation", false, 9/10, ["API documentation block"]⟩),
   (isCriticalComment (cleanCommentText c.text),
    ⟨"critical", false, 19/20, ["Contains critical directives or important metadata"]⟩),
   (isDocumentation (cleanCommentText c.text) c.context,
    ⟨"documentation", false, 17/20, ["Appears to be meaningful documentation"]⟩),
   (isCommentedCode (cleanCommentText c.text) (getLanguageConfig d.languageId),
    ⟨"commented_code", true, 9/10, ["Appears to be commented-out code"]⟩),
   (decide (1/2 < calculateRedundancyScore (cleanCommentText c.text) c.context),
    ⟨"redundant", true, calculateRedundancyScore (cleanCommentText c.text) c.context,
      ["Comment is redundant with the code it describes"]⟩),
   (isNoiseComment (cleanCommentText c.text),
    ⟨"noise", true, 4/5, ["Comment appears to be noise or placeholder"]⟩),
   (isOutdatedComment (cleanCommentText c.text) c.context,
    ⟨"outdated", true, 7/10, ["Comment appears to be outdated or incorrect"]⟩),
   (isTrivialComment (cleanCommentText c.text) c.context,
    ⟨"trivial", true, 3/4, ["Comment states the obvious"]⟩),
   (isEmptyComment (cleanCommentText c.text),
    ⟨"empty", true, 19/20, ["Comment is empty or contains only whitespace"]⟩),
   (isDuplicateComment (cleanCommentText c.text) c d,
    ⟨"duplicate", true, 4/5, ["Comment is duplicated elsewhere"]⟩),
   (isDebugComment (cleanCommentText c.text),
    ⟨"debug", true, 17/20, ["Comment appears to be debug or temporary"]⟩)]

/-- The scenario document `"/** @param x the input */\nfunction f(x) {}"`
of claim C2. -/
def docDocBlock : Document where
  text := "/** @param x the input */\nfunction f(x) \x7b\x7d".toList
  languageId := "javascript"

/-- The context extraction attaches to the `docDocBlock` comment. -/
def ctxDocBlock : Context where
  previousLine := []
  currentLine := "/** @param x the input */".toList
  nextLine := "function f(x) \x7b\x7d".toList
  nextNonEmptyLine := "function f(x) \x7b\x7d".toList
  indentLevel := 0

/-- The comment record extraction produces for `docDocBlock` (a `multi`
record, not a doc-block). -/
def cDocBlock : SrcComment where
  type := CommentType.multi
  text := "/** @param x the input */".toList
  startOff := 0
  endOff := 25
  startLine := 0
  startChar := 0
  lineNumber := 0
  context := ctxDocBlock
  isInlineComment := false
  isDocBlock := false

/-- A document whose only comment is preceded by indentation whitespace
alone. -/
def docIndent : Document where
  text := "   // x\ncode()\n".toList
  languageId := "javascript"

/-- The context of the `docIndent` comment. -/
def ctxIndent : Context where
  previousLine := []
  currentLine := "// x".toList
  nextLine := "code()".toList
  nextNonEmptyLine := "code()".toList
  indentLevel := 3

/-- The comment record extraction produces for `docIndent`: start column 3,
so the source marks it inline although only whitespace precedes it. -/
def cIndent : SrcComment where
  type := CommentType.single
  text := "// x".toList
  startOff := 3
  endOff := 7
  startLine := 0
  startChar := 3
  lineNumber := 0
  context := ctxIndent
  isInlineComment := true
  isDocBlock := false

/-- The whole-line-deletion scenario document `"   // noise\nx = 1;\n"`. -/
def docWsLine : Document where
  text := "   // noise\nx = 1;\n".toList
  languageId := "javascript"

/-- The context of the `docWsLine` comment. -/
def ctxWsLine : Context where
  previousLine := []
  currentLine := "// noise".toList
  nextLine := "x = 1;".toList
  nextNonEmptyLine := "x = 1;".toList
  indentLevel := 3

/-- The comment record extraction produces for `docWsLine`. -/
def cWsLine : SrcComment where
  type := CommentType.single
  text := "// noise".toList
  startOff := 3
  endOff := 11
  startLine := 0
  startChar := 3
  lineNumber := 0
  context := ctxWsLine
  isInlineComment := true
  isDocBlock := false

/-- The span-deletion scenario document `"x = 1; // noise\n"`. -/
def docInline : Document where
  text := "x = 1; // noise\n".toList
  languageId := "javascript"

/-- The context of the `docInline` comment. -/
def ctxInline : Context where
  previousLine := []
  currentLine := "x = 1; // noise".toList
  nextLine := []
  nextNonEmptyLine := []
  indentLevel := 0

/-- The comment record extraction produces for `docInline`. -/
def cInline : SrcComment where
  type := CommentType.single
  text := "// noise".toList
  startOff := 7
  endOff := 15
  startLine := 0
  startChar := 7
  lineNumber := 0
  context := ctxInline
  isInlineComment := true
  isDocBlock := false

/-- A document with two comments whose planned deletion ranges are
disjoint. -/
def docTwo : Document where
  text := "x = 1; // a\n// b\n".toList
  languageId := "javascript"

/-- A document whose comment is commented-out code. -/
def docCode : Document where
  text := "// x = y\nz = 1;\n".toList
  languageId := "javascript"

/-- The context of the `docCode` comment. -/
def ctxCode : Context where
  previousLine := []
  currentLine := "// x = y".toList
  nextLine := "z = 1;".toList
  nextNonEmptyLine := "z = 1;".toList
  indentLevel := 0

/-- The comment record extraction produces for `docCode`. -/
def cCode : SrcComment where
  type := CommentType.single
  text := "// x = y".toList
  startOff := 0
  endOff := 8
  startLine := 0
  startChar := 0
  lineNumber := 0
  context := ctxCode
  isInlineComment := false
  isDocBlock := false

/-- A document in a language with no registered profile. -/
def docRuby : Document where
  text := "# hi".toList
  languageId := "ruby"

/-- Worker for `occursWholeWord`: `pre` is the character immediately before
the current position, if any. -/
def occursWholeWordAux (w : Str) : Str → Option Char → Bool
  | [], _ => false
  | c :: rest, pre =>
    (w.isPrefixOf (c :: rest)
      && (match pre with | none => true | some p => !isWordChar p)
      && (match (c :: rest).drop w.length with | [] => true | d :: _ => !isWordChar d))
    || occursWholeWordAux w rest (some c)

/-- Whole-word occurrence: `w` appears in `l` with no word character
immediately before or after the occurrence. -/
def occursWholeWord (w l : Str) : Bool :=
  occursWholeWordAux w l none

/-- The commented-code firing condition as the specification words it, with
keywords counted only when they occur as whole words.  This follows the
spec text and is compared against `isCommentedCode`, which is translated
from the source. -/
def commentedCodeClaim (clean : Str) (cfg : LangConfig) : Bool :=
  decide (3 ≤ clean.length) &&
    (decide (3 ≤ (codeSymbols.filter (fun s => containsSub s clean)).length) ||
     decide (2 ≤ (cfg.keywords.filter (fun k => occursWholeWord k clean)).length) ||
     hasVarAssign clean || hasFuncCall clean || hasCodeFlow clean)

example : cleanCommentText ("# old version".toList) = "old version".toList := by decide
example : cleanCommentText ("/** @param x the input */".toList) = "@param x the input".toList := by
  decide

example : scanMulti [("/*".toList, "*/".toList)] ("/* a */ x /* b */".toList)
    = [(0, 7), (10, 17)] := by decide
example : findSub? ("//".toList) ("/* // x */".toList) = some 3 := by decide

example :
    (extractComments docOldVersion).map (fun c => (c.type, c.text))
      = [(CommentType.single, "# old version".toList)] := by decide
example :
    (extractComments docOverlap).map (fun c => (c.type, c.startOff, c.endOff))
      = [(CommentType.single, 3, 10), (CommentType.multi, 0, 10)] := by decide

example : extractComments docOldVersion = [cOldVersion] := by decide

example :
    planRemoval docOverlap (extractComments docOverlap) = [⟨3, 10⟩, ⟨0, 11⟩] := by decide
example :
    List.foldl applyDel docOverlap.text (planRemoval docOverlap (extractComments docOverlap))
      = [] := by decide
example :
    refRemove docOverlap.text (planRemoval docOverlap (extractComments docOverlap))
      = "code".toList := by decide

theorem refAux_append (rs : List Range) (a : Str) :
    ∀ (i : Nat) (b : Str), refAux rs i (a ++ b) = refAux rs i a ++ refAux rs (i + a.length) b := by
  induction a with
  | nil => intro i b; simp [refAux]
  | cons c t ih =>
    intro i b
    simp only [List.cons_append, refAux]
    cases h : keepAt rs i <;>
      simp [h, ih (i + 1) b, List.length_cons,
        show i + (t.length + 1) = i + 1 + t.length by omega]

theorem refAux_past (rs : List Range) (t : Str) :
    ∀ i : Nat, (∀ r ∈ rs, r.e ≤ i) → refAux rs i t = t := by
  induction t with
  | nil => intro i _; rfl
  | cons c t ih =>
    intro i h
    have hk : keepAt rs i = true := by
      simp only [keepAt, List.all_eq_true]
      intro r hr
      simp [decide_eq_true (h r hr)]
    simp [refAux, hk, ih (i + 1) (fun r hr => Nat.le_succ_of_le (h r hr))]

theorem refAux_skip_head (r : Range) (rs : List Range) (t : Str) :
    ∀ i : Nat, i + t.length ≤ r.s → refAux (r :: rs) i t = refAux rs i t := by
  induction t with
  | nil => intro i _; rfl
  | cons c t ih =>
    intro i h
    simp only [List.length_cons] at h
    have hk : keepAt (r :: rs) i = keepAt rs i := by
      simp only [keepAt, List.all_cons]
      have hx : i < r.s := by omega
      simp [decide_eq_true hx]
    have ht : i + 1 + t.length ≤ r.s := by omega
    simp only [refAux, hk, ih (i + 1) ht]

theorem refAux_inside (r : Range) (rs : List Range) (t : Str) :
    ∀ i : Nat, r.s ≤ i → i + t.length ≤ r.e → refAux (r :: rs) i t = [] := by
  induction t with
  | nil => intro i _ _; rfl
  | cons c t ih =>
    intro i h1 h2
    simp only [List.length_cons] at h2
    have hk : keepAt (r :: rs) i = false := by
      simp only [keepAt, List.all_cons]
      have hx : ¬ i < r.s := by omega
      have hy : ¬ r.e ≤ i := by omega
      simp [hx, hy]
    simp only [refAux, hk, Bool.false_eq_true, if_false]
    exact ih (i + 1) (by omega) (by omega)

theorem refRemove_applyDel (t : Str) (r : Range) (rs : List Range)
    (hse : r.s ≤ r.e) (hall : ∀ r2 ∈ rs, r2.e ≤ r.s) :
    refRemove (applyDel t r) rs = refRemove t (r :: rs) := by
  have hA : (t.take r.s).length = min r.s t.length := List.length_take r.s t
  have hdropnil : t.length < r.s → t.drop r.e = [] := fun h =>
    List.drop_eq_nil_of_le (by omega)
  have htail : refAux rs (t.take r.s).length (t.drop r.e) = t.drop r.e := by
    by_cases hcase : r.s ≤ t.length
    · have hlen : (t.take r.s).length = r.s := by
        rw [hA]; omega
      rw [hlen]
      exact refAux_past rs (t.drop r.e) r.s hall
    · rw [hdropnil (by omega)]
      rfl
  have lhs :
      refRemove (applyDel t r) rs
        = refAux rs 0 (t.take r.s) ++ t.drop r.e := by
    simp only [refRemove, applyDel]
    rw [refAux_append rs (t.take r.s) 0 (t.drop r.e)]
    simp only [Nat.zero_add]
    rw [htail]
  have hsplit : t.take r.s ++ t.drop r.s = t := List.take_append_drop r.s t
  have rhs :
      refRemove t (r :: rs)
        = refAux rs 0 (t.take r.s) ++ refAux (r :: rs) (t.take r.s).length (t.drop r.s) := by
    simp only [refRemove]
    conv_lhs => rw [← hsplit]
    rw [refAux_append (r :: rs) (t.take r.s) 0 (t.drop r.s)]
    simp only [Nat.zero_add]
    congr 1
    exact refAux_skip_head r rs (t.take r.s) 0
      (by simp only [Nat.zero_add, hA]; exact Nat.min_le_left r.s t.length)
  have hpiece2 : refAux (r :: rs) (t.take r.s).length (t.drop r.s) = t.drop r.e := by
    by_cases hcase : r.s ≤ t.length
    · have hlen : (t.take r.s).length = r.s := by rw [hA]; omega
      rw [hlen]
      have hBC : (t.drop r.s) = (t.drop r.s).take (r.e - r.s) ++ (t.drop r.s).drop (r.e - r.s) :=
        (List.take_append_drop (r.e - r.s) (t.drop r.s)).symm
      have hC : (t.drop r.s).drop (r.e - r.s) = t.drop r.e := by
        rw [List.drop_drop]
        congr 1
        omega
      conv_lhs => rw [hBC]
      rw [refAux_append (r :: rs) ((t.drop r.s).take (r.e - r.s)) r.s]
      have hBlen : ((t.drop r.s).take (r.e - r.s)).length
          = min (r.e - r.s) (t.length - r.s) := by
        rw [List.length_take, List.length_drop]
      have hB : refAux (r :: rs) r.s ((t.drop r.s).take (r.e - r.s)) = [] := by
        apply refAux_inside r rs _ r.s (le_refl r.s)
        rw [hBlen]
        omega
      rw [hB, hC]
      simp only [List.nil_append]
      by_cases hcase2 : r.e ≤ t.length
      · have hmin : (r.e - r.s) ⊓ (t.length - r.s) = r.e - r.s :=
          Nat.min_eq_left (by omega)
        apply refAux_past (r :: rs) (t.drop r.e)
        intro r2 hr2
        rcases List.mem_cons.mp hr2 with h | h
        · subst h
          rw [hBlen, hmin]
          omega
        · have := hall r2 h
          rw [hBlen]
          have : r2.e ≤ r.s := hall r2 h
          omega
      · have hnil2 : t.drop r.e = [] := List.drop_eq_nil_of_le (by omega)
        rw [hnil2]
        rfl
    · have hnil : t.drop r.s = [] := List.drop_eq_nil_of_le (by omega)
      rw [hnil, hdropnil (by omega)]
      rfl
  rw [lhs, rhs, hpiece2]

theorem foldl_applyDel_refRemove (rs : List Range) :
    ∀ t : Str, descSep rs = true → List.foldl applyDel t rs = refRemove t rs := by
  induction rs with
  | nil =>
    intro t _
    exact (refAux_past [] t 0 (by simp)).symm
  | cons r rs ih =>
    intro t h
    simp only [descSep, Bool.and_eq_true, List.all_eq_true, decide_eq_true_eq] at h
    obtain ⟨⟨hse, hall⟩, hrs⟩ := h
    simp only [List.foldl_cons]
    rw [ih (applyDel t r) hrs]
    exact refRemove_applyDel t r rs hse hall

/-- First-match-wins: `analyzeComment` returns the result of the
minimum-index rule whose condition holds, and the `regular` default when
none does. -/
theorem analyzeComment_eq_firstMatch (c : SrcComment) (d : Document) :
    analyzeComment c d
      = (((classifierRules c d).find? (fun p => p.1)).map Prod.snd).getD regularAnalysis := by
  unfold analyzeComment restAnalysis classifyClean classifierRules
  by_cases h0 : (c.type == CommentType.docblock || c.isDocBlock) = true
  · simp [h0, List.find?, -one_div]
  · rw [Bool.not_eq_true] at h0
    by_cases h1 : isCriticalComment (cleanCommentText c.text) = true
    · simp [h0, h1, List.find?, -one_div]
    · rw [Bool.not_eq_true] at h1
      by_cases h2 : isDocumentation (cleanCommentText c.text) c.context = true
      · simp [h0, h1, h2, List.find?, -one_div]
      · rw [Bool.not_eq_true] at h2
        by_cases h3 : isCommentedCode (cleanCommentText c.text)
            (getLanguageConfig d.languageId) = true
        · simp [h0, h1, h2, h3, List.find?, -one_div]
        · rw [Bool.not_eq_true] at h3
          by_cases h4 : 1/2 < calculateRedundancyScore (cleanCommentText c.text) c.context
          · simp [h0, h1, h2, h3, h4, List.find?, -one_div]
          · by_cases h5 : isNoiseComment (cleanCommentText c.text) = true
            · simp [h0, h1, h2, h3, h4, h5, List.find?, -one_div]
            · rw [Bool.not_eq_true] at h5
              by_cases h6 : isOutdatedComment (cleanCommentText c.text) c.context = true
              · simp [h0, h1, h2, h3, h4, h5, h6, List.find?, -one_div]
              · rw [Bool.not_eq_true] at h6
                by_cases h7 : isTrivialComment (cleanCommentText c.text) c.context = true
                · simp [h0, h1, h2, h3, h4, h5, h6, h7, List.find?, -one_div]
                · rw [Bool.not_eq_true] at h7
                  by_cases h8 : isEmptyComment (cleanCommentText c.text) = true
                  · simp [h0, h1, h2, h3, h4, h5, h6, h7, h8, List.find?, -one_div]
                  · rw [Bool.not_eq_true] at h8
                    by_cases h9 : isDuplicateComment (cleanCommentText c.text) c d = true
                    · simp [h0, h1, h2, h3, h4, h5, h6, h7, h8, h9, List.find?, -one_div]
                    · rw [Bool.not_eq_true] at h9
                      by_cases h10 : isDebugComment (cleanCommentText c.text) = true
                      · simp [h0, h1, h2, h3, h4, h5, h6, h7, h8, h9, h10, List.find?, -one_div]
                      · rw [Bool.not_eq_true] at h10
                        simp [h0, h1, h2, h3, h4, h5, h6, h7, h8, h9, h10, List.find?, -one_div]

/-- A string trims to nothing exactly when it is all whitespace. -/
theorem jsTrim_eq_nil_iff (l : Str) : jsTrim l = [] ↔ l.all jsIsSpace = true := by
  unfold jsTrim
  rw [List.reverse_eq_nil_iff, List.dropWhile_eq_nil_iff]
  constructor
  · intro h
    rw [List.all_eq_true]
    intro x hx
    rw [← List.takeWhile_append_dropWhile (p := jsIsSpace) (l := l)] at hx
    rcases List.mem_append.mp hx with hx1 | hx2
    · exact List.mem_takeWhile_imp hx1
    · exact h x (List.mem_reverse.mpr hx2)
  · intro h x hx
    exact List.all_eq_true.mp h x
      ((List.dropWhile_sublist jsIsSpace).subset (List.mem_reverse.mp hx))

/-- The plan picks whole-line deletion exactly when only whitespace precedes
the comment's start column on its line. -/
theorem chooseDeletion_wholeLine_iff (d : Document) (c : SrcComment) :
    chooseDeletion d c = Deletion.wholeLine c.startLine
      ↔ (((splitLines d.text).getD c.startLine []).take c.startChar).all jsIsSpace = true := by
  unfold chooseDeletion
  by_cases h : jsTrim (((splitLines d.text).getD c.startLine []).take c.startChar) = []
  · rw [if_pos h]
    constructor
    · intro _
      exact (jsTrim_eq_nil_iff _).mp h
    · intro _
      rfl
  · rw [if_neg h]
    constructor
    · intro hx
      exact absurd hx (by simp)
    · intro hall
      exact absurd ((jsTrim_eq_nil_iff _).mpr hall) h

/-- Shape of every extracted comment: single-line records carry
`isInlineComment = (0 < startChar)`, multi-line records carry
`isInlineComment = false`, and no record is a doc-block. -/
theorem extract_shape (d : Document) (c : SrcComment) (h : c ∈ extractComments d) :
    ((c.type = CommentType.single ∧ c.isInlineComment = decide (0 < c.startChar)) ∨
      (c.type = CommentType.multi ∧ c.isInlineComment = false)) ∧ c.isDocBlock = false := by
  unfold extractComments at h
  cases hcfg : getLanguageConfig d.languageId with
  | none => rw [hcfg] at h; simp at h
  | some cfg =>
    rw [hcfg] at h
    rcases List.mem_append.mp h with h1 | h2
    · cases hsl : cfg.singleLine with
      | none => simp [extractSingles, hsl] at h1
      | some marker =>
        simp only [extractSingles, hsl] at h1
        rcases List.mem_filterMap.mp h1 with ⟨p, _, hsome⟩
        rcases Option.map_eq_some'.mp hsome with ⟨j, _, hc⟩
        rw [← hc]
        simp [mkSingleComment]
    · cases hml : cfg.multiLine with
      | none => simp [extractMultis, hml] at h2
      | some alts =>
        simp only [extractMultis, hml] at h2
        rcases List.mem_map.mp h2 with ⟨r, _, hc⟩
        rw [← hc]
        simp [mkMultiComment]

/-- The redundancy score of the `"old version"` scenario comment is zero
(no token of the comment overlaps the following code line). -/
theorem score_oldVersion :
    calculateRedundancyScore ("old version".toList) ctxOldVersion = 0 := by
  have hcond : (decide (("old version".toList).length < 3)
      || ctxOldVersion.nextNonEmptyLine.isEmpty) = false := by decide
  have hcounts :
      redundancyCounts ((wsplit ("old version".toList)).filter (fun w => 2 < w.length))
        ((wsplit ((toLowerStr ctxOldVersion.nextNonEmptyLine).map
          (fun c => if isAlnumChar c then c else ' '))).filter (fun w => 2 < w.length))
        = (0, 0, 0) := by decide
  have hlen : ((wsplit ("old version".toList)).filter (fun w => 2 < w.length)).length = 2 := by
    decide
  simp only [calculateRedundancyScore, hcond, Bool.false_eq_true, if_false, hcounts, hlen]
  norm_num

/-- The `"# old version"` comment classifies as `noise`: the short-comment
noise shape (at most three word tokens) fires before the outdated rule. -/
theorem analyze_oldVersion :
    analyzeComment cOldVersion docOldVersion
      = ⟨"noise", true, 4/5, ["Comment appears to be noise or placeholder"]⟩ := by
  have hdoc : (cOldVersion.type == CommentType.docblock || cOldVersion.isDocBlock) = false := by
    decide
  have hclean : cleanCommentText cOldVersion.text = "old version".toList := by decide
  have hctx : cOldVersion.context = ctxOldVersion := by decide
  have h1 : isCriticalComment ("old version".toList) = false := by decide
  have h2 : isDocumentation ("old version".toList) ctxOldVersion = false := by decide
  have h3 : isCommentedCode ("old version".toList) (getLanguageConfig docOldVersion.languageId)
      = false := by decide
  have h5 : isNoiseComment ("old version".toList) = true := by decide
  have hlt : ¬((1 : ℚ)/2 < 0) := by norm_num
  simp only [analyzeComment, hdoc, Bool.false_eq_true, if_false, restAnalysis, hclean,
    classifyClean, hctx, h1, h2, h3, score_oldVersion, hlt, h5, if_true, if_false]

/-- The `"/** @param x the input */"` comment classifies as `critical`: it
is extracted as an ordinary multi-line comment, so the doc-block branch is
skipped and the `@param` substring trips the critical rule. -/
theorem analyze_docBlockDoc :
    analyzeComment cDocBlock docDocBlock
      = ⟨"critical", false, 19/20, ["Contains critical directives or important metadata"]⟩ := by
  have hdoc : (cDocBlock.type == CommentType.docblock || cDocBlock.isDocBlock) = false := by
    decide
  have hclean : cleanCommentText cDocBlock.text = "@param x the input".toList := by decide
  have h1 : isCriticalComment ("@param x the input".toList) = true := by decide
  simp only [analyzeComment, hdoc, Bool.false_eq_true, if_false, restAnalysis, hclean,
    classifyClean, h1, if_true]

/-- The `"// x = y"` comment classifies as `commented_code` via the
variable-assignment shape. -/
theorem analyze_cCode :
    analyzeComment cCode docCode
      = ⟨"commented_code", true, 9/10, ["Appears to be commented-out code"]⟩ := by
  have hdoc : (cCode.type == CommentType.docblock || cCode.isDocBlock) = false := by decide
  have hclean : cleanCommentText cCode.text = "x = y".toList := by decide
  have h1 : isCriticalComment ("x = y".toList) = false := by decide
  have h2 : isDocumentation ("x = y".toList) cCode.context = false := by decide
  have h3 : isCommentedCode ("x = y".toList) (getLanguageConfig docCode.languageId)
      = true := by decide
  simp only [analyzeComment, hdoc, Bool.false_eq_true, if_false, restAnalysis, hclean,
    classifyClean, h1, h2, h3, if_true, if_false]

/-- C1 (counterexample): on `"/* // x */\ncode"` the single-line and
multi-line scans overlap; applying the plan's deletions sequentially in
descending order empties the buffer, while removing both ranges from the
immutable original and reassembling leaves `"code"` — the two algorithms
disagree, refuting the claim for arbitrary positions. -/
theorem claim_C1_counterexample :
    List.foldl applyDel docOverlap.text (planRemoval docOverlap (extractComments docOverlap))
      ≠ refRemove docOverlap.text (planRemoval docOverlap (extractComments docOverlap)) := by
  decide

/-- C1 (amended): for every document and selection whose planned deletion
ranges are pairwise disjoint (each later-applied range ends at or before
each earlier range's start), applying the plan's deletions one by one in
the plan's descending order produces the same text as the reference
remove-all-ranges-and-reassemble algorithm. -/
theorem claim_C1_theorem : ∀ (d : Document) (selected : List SrcComment),
    descSep (planRemoval d selected) = true →
      List.foldl applyDel d.text (planRemoval d selected)
        = refRemove d.text (planRemoval d selected) := by
  intro d selected h
  exact foldl_applyDel_refRemove (planRemoval d selected) d.text h

/-- C1 witness: a concrete two-comment document with disjoint planned
ranges on which the amended equivalence holds. -/
theorem claim_C1_witness :
    descSep (planRemoval docTwo (extractComments docTwo)) = true
      ∧ List.foldl applyDel docTwo.text (planRemoval docTwo (extractComments docTwo))
        = refRemove docTwo.text (planRemoval docTwo (extractComments docTwo)) :=
  ⟨by decide, claim_C1_theorem docTwo (extractComments docTwo) (by decide)⟩

/-- C2 (counterexample): for the doc-block scenario document, extraction
yields no comment of doc-block kind, and classification does not return the
`documentation` category. -/
theorem claim_C2_counterexample :
    (extractComments docDocBlock).all (fun c => !(c.type == CommentType.docblock)) = true
      ∧ (extractComments docDocBlock).map (fun c => (analyzeComment c docDocBlock).category)
        ≠ ["documentation"] := by
  refine ⟨by decide, ?_⟩
  rw [show extractComments docDocBlock = [cDocBlock] from by decide]
  simp only [List.map]
  rw [analyze_docBlockDoc]
  decide

/-- C2 (amended): extraction yields one `multi` comment (the doc-block
pattern is never applied), and classification fires the `critical` rule
(confidence 0.95, shouldRemove = false) because the normalized text
contains `@param`. -/
theorem claim_C2_theorem :
    (extractComments docDocBlock).map (fun c => c.type) = [CommentType.multi]
      ∧ (extractComments docDocBlock).map (fun c => analyzeComment c docDocBlock)
        = [⟨"critical", false, 19/20, ["Contains critical directives or important metadata"]⟩] := by
  refine ⟨by decide, ?_⟩
  rw [show extractComments docDocBlock = [cDocBlock] from by decide]
  simp only [List.map]
  rw [analyze_docBlockDoc]

/-- C3 (counterexample): classification of the `"# old version"` comment
does not return the `outdated` category. -/
theorem claim_C3_counterexample :
    (extractComments docOldVersion).map (fun c => (analyzeComment c docOldVersion).category)
      ≠ ["outdated"] := by
  rw [show extractComments docOldVersion = [cOldVersion] from by decide]
  simp only [List.map]
  rw [analyze_oldVersion]
  decide

/-- C3 (amended): extraction yields exactly one single-line comment
`"# old version"`, and classification fires the `noise` rule (confidence
0.8, shouldRemove = true): the at-most-three-word noise shape matches and
has priority over the outdated rule. -/
theorem claim_C3_theorem :
    (extractComments docOldVersion).map (fun c => (c.type, c.text))
        = [(CommentType.single, "# old version".toList)]
      ∧ (extractComments docOldVersion).map (fun c => analyzeComment c docOldVersion)
        = [⟨"noise", true, 4/5, ["Comment appears to be noise or placeholder"]⟩] := by
  refine ⟨by decide, ?_⟩
  rw [show extractComments docOldVersion = [cOldVersion] from by decide]
  simp only [List.map]
  rw [analyze_oldVersion]

/-- C4: the classifier returns exactly the result of the minimum-index rule
of the fixed priority order whose predicate matches, and the default
`regular` category with confidence 0.3 and shouldRemove = false when no
rule matches; a lower-priority rule never overrides a higher one. -/
theorem claim_C4_theorem : ∀ (c : SrcComment) (d : Document),
    analyzeComment c d
      = (((classifierRules c d).find? (fun p => p.1)).map Prod.snd).getD
          ⟨"regular", false, 3/10, ["Regular comment - preserving for safety"]⟩ := by
  intro c d
  rw [analyzeComment_eq_firstMatch]
  rfl

/-- C5 (counterexample): on the normalized comment `"motif fortune"` with
the javascript profile, the source's rule fires (the keyword `if` matches
inside `motif` via `"if "`, and `for` inside `fortune` via `" for"`), but
the claim's whole-word reading does not. -/
theorem claim_C5_counterexample :
    isCommentedCode ("motif fortune".toList) (some jsConfig) = true
      ∧ commentedCodeClaim ("motif fortune".toList) jsConfig = false := by
  decide

/-- C5 (amended): the commented-code rule of length-≥-3 comments fires
exactly when at least 3 of the fixed symbols occur, or at least 2 keywords
occur followed or preceded by a space (substring match with one adjacent
space, not whole-word), or one of the assignment / call / control-flow
shapes matches; and whenever the pipeline returns `commented_code` the
confidence is 0.9 and shouldRemove is true. -/
theorem claim_C5_theorem :
    (∀ (clean : Str) (cfg : LangConfig),
      isCommentedCode clean (some cfg)
        = (decide (3 ≤ clean.length) &&
           (decide (3 ≤ (codeSymbols.filter (fun s => containsSub s clean)).length) ||
            decide (2 ≤ (cfg.keywords.filter (fun k =>
              containsSub (k ++ [' ']) clean || containsSub (' ' :: k) clean)).length) ||
            hasVarAssign clean || hasFuncCall clean || hasCodeFlow clean)))
    ∧ (∀ (c : SrcComment) (d : Document),
        (analyzeComment c d).category = "commented_code" →
          (analyzeComment c d).confidence = 9/10 ∧ (analyzeComment c d).shouldRemove = true) := by
  constructor
  · intro clean cfg
    by_cases h : clean.length < 3
    · simp [isCommentedCode, if_pos h, show ¬(3 ≤ clean.length) from by omega]
    · simp [isCommentedCode, if_neg h, show 3 ≤ clean.length from by omega,
        List.countP_eq_length_filter]
  · intro c d hcat
    rw [analyzeComment_eq_firstMatch] at hcat ⊢
    cases hf : (classifierRules c d).find? (fun p => p.1) with
    | none =>
      rw [hf] at hcat
      simp [regularAnalysis] at hcat
    | some pa =>
      rw [hf] at hcat
      simp only [Option.map_some', Option.getD_some] at hcat ⊢
      have hmem := List.mem_of_find?_eq_some hf
      simp only [classifierRules, List.mem_cons, List.not_mem_nil, or_false] at hmem
      rcases hmem with h|h|h|h|h|h|h|h|h|h|h <;> subst h <;> dsimp only at hcat ⊢ <;>
        first
        | exact ⟨rfl, rfl⟩
        | exact absurd hcat (by decide)

/-- C5 witness: the characterization at `"x = y"`, and the fired rule's
confidence and flag on a concrete commented-out-code document. -/
theorem claim_C5_witness :
    isCommentedCode ("x = y".toList) (some jsConfig)
        = (decide (3 ≤ ("x = y".toList).length) &&
           (decide (3 ≤ (codeSymbols.filter (fun s => containsSub s ("x = y".toList))).length) ||
            decide (2 ≤ (jsConfig.keywords.filter (fun k =>
              containsSub (k ++ [' ']) ("x = y".toList)
                || containsSub (' ' :: k) ("x = y".toList))).length) ||
            hasVarAssign ("x = y".toList) || hasFuncCall ("x = y".toList)
              || hasCodeFlow ("x = y".toList)))
      ∧ ((analyzeComment cCode docCode).confidence = 9/10
          ∧ (analyzeComment cCode docCode).shouldRemove = true) :=
  ⟨claim_C5_theorem.1 ("x = y".toList) jsConfig,
   claim_C5_theorem.2 cCode docCode (by rw [analyze_cCode])⟩

/-- C6 (counterexample): in `"   // x"`, only whitespace precedes the
comment, yet the extracted record has `isInlineComment = true` — refuting
the claim that the flag holds exactly when non-whitespace precedes. -/
theorem claim_C6_counterexample :
    (extractComments docIndent).map (fun c => c.isInlineComment) = [true]
      ∧ (((splitLines docIndent.text).getD 0 []).take 3).all jsIsSpace = true := by
  decide

/-- C6 (amended): for every extracted comment, `isInlineComment` is true
exactly when the comment is single-line and starts at a column greater than
zero; multi-line comments always carry `false`, regardless of what precedes
them. -/
theorem claim_C6_theorem : ∀ (d : Document) (c : SrcComment), c ∈ extractComments d →
    c.isInlineComment = (c.type == CommentType.single && decide (0 < c.startChar)) := by
  intro d c h
  rcases extract_shape d c h with ⟨hshape, _⟩
  rcases hshape with ⟨ht, hi⟩ | ⟨ht, hi⟩ <;> rw [hi, ht] <;> simp

/-- C6 witness: the amended flag equation at the indentation-only concrete
comment. -/
theorem claim_C6_witness :
    cIndent.isInlineComment
      = (cIndent.type == CommentType.single && decide (0 < cIndent.startChar)) :=
  claim_C6_theorem docIndent cIndent (by decide)

/-- C7: the plan chooses whole-line deletion exactly when the text before
the comment's start column on its line is entirely whitespace; on
`"   // noise"` the whole line including its terminator is deleted leaving
`"x = 1;\n"`, and on `"x = 1; // noise"` only the span is deleted leaving
`"x = 1; "` (with its line terminator). -/
theorem claim_C7_theorem :
    (∀ (d : Document) (c : SrcComment),
      chooseDeletion d c = Deletion.wholeLine c.startLine
        ↔ (((splitLines d.text).getD c.startLine []).take c.startChar).all jsIsSpace = true)
    ∧ planRemoval docWsLine (extractComments docWsLine) = [⟨0, 12⟩]
    ∧ List.foldl applyDel docWsLine.text (planRemoval docWsLine (extractComments docWsLine))
        = "x = 1;\n".toList
    ∧ planRemoval docInline (extractComments docInline) = [⟨7, 15⟩]
    ∧ List.foldl applyDel docInline.text (planRemoval docInline (extractComments docInline))
        = "x = 1; \n".toList :=
  ⟨chooseDeletion_wholeLine_iff, by decide, by decide, by decide, by decide⟩

/-- C7 witness: the whole-line/span decision at the two concrete scenario
comments. -/
theorem claim_C7_witness :
    chooseDeletion docWsLine cWsLine = Deletion.wholeLine 0
      ∧ chooseDeletion docInline cInline ≠ Deletion.wholeLine 0 :=
  ⟨(claim_C7_theorem.1 docWsLine cWsLine).mpr (by decide),
   fun h => absurd ((claim_C7_theorem.1 docInline cInline).mp h) (by decide)⟩

/-- C8: for every normalized comment and context the redundancy score lies
in `[0, 0.95]`, and it is zero when the comment is shorter than 3
characters or the context has no next non-blank line. -/
theorem claim_C8_theorem : ∀ (clean : Str) (ctx : Context),
    (0 ≤ calculateRedundancyScore clean ctx ∧ calculateRedundancyScore clean ctx ≤ 19/20)
    ∧ (clean.length < 3 ∨ ctx.nextNonEmptyLine = [] →
        calculateRedundancyScore clean ctx = 0) := by
  intro clean ctx
  constructor
  · unfold calculateRedundancyScore
    split
    · norm_num
    · dsimp only
      split
      · norm_num
      · constructor
        · apply le_min
          · apply div_nonneg
            · positivity
            · positivity
          · norm_num
        · exact min_le_right _ _
  · intro h
    unfold calculateRedundancyScore
    rw [if_pos]
    rcases h with h | h
    · simp [h]
    · simp [h]

/-- C8 witness: the bounds at a concrete comment and the zero case at a
two-character comment. -/
theorem claim_C8_witness :
    (0 ≤ calculateRedundancyScore ("old version".toList) ctxOldVersion
      ∧ calculateRedundancyScore ("old version".toList) ctxOldVersion ≤ 19/20)
    ∧ calculateRedundancyScore ("ab".toList) ctxOldVersion = 0 :=
  ⟨(claim_C8_theorem ("old version".toList) ctxOldVersion).1,
   (claim_C8_theorem ("ab".toList) ctxOldVersion).2 (Or.inl (by decide))⟩

/-- C9: for every document whose language id has no registered profile,
extraction returns the empty sequence (a normal "nothing to do" outcome of
the total function, indistinguishable from zero comments). -/
theorem claim_C9_theorem : ∀ d : Document,
    getLanguageConfig d.languageId = none → extractComments d = [] := by
  intro d h
  unfold extractComments
  rw [h]

/-- C9 witness: a ruby document has no profile and extracts to `[]`. -/
theorem claim_C9_witness :
    getLanguageConfig docRuby.languageId = none ∧ extractComments docRuby = [] :=
  ⟨by decide, claim_C9_theorem docRuby (by decide)⟩

/-- C10: every extracted comment has kind single-line or multi-line and
carries `isDocBlock = false`, so the classifier's doc-block branch is never
taken: `analyzeComment` equals the pipeline that starts at the critical
rule. -/
theorem claim_C10_theorem : ∀ (d : Document) (c : SrcComment), c ∈ extractComments d →
    (c.type = CommentType.single ∨ c.type = CommentType.multi)
      ∧ c.isDocBlock = false
      ∧ analyzeComment c d = restAnalysis c d := by
  intro d c h
  rcases extract_shape d c h with ⟨hshape, hdb⟩
  have htype : c.type = CommentType.single ∨ c.type = CommentType.multi := by
    rcases hshape with ⟨ht, _⟩ | ⟨ht, _⟩
    · exact Or.inl ht
    · exact Or.inr ht
  refine ⟨htype, hdb, ?_⟩
  have hcond : (c.type == CommentType.docblock || c.isDocBlock) = false := by
    rcases htype with ht | ht <;> rw [ht, hdb] <;> decide
  unfold analyzeComment
  rw [if_neg (by simp [hcond])]

/-- C10 witness: the kind, flag and branch-skip at a concrete extracted
comment. -/
theorem claim_C10_witness :
    (cOldVersion.type = CommentType.single ∨ cOldVersion.type = CommentType.multi)
      ∧ cOldVersion.isDocBlock = false
      ∧ analyzeComment cOldVersion docOldVersion = restAnalysis cOldVersion docOldVersion :=
  claim_C10_theorem docOldVersion cOldVersion (by decide)
